import Mathlib

/-!
Verification development for the `pytest-reportlog` plugin
(`src/pytest_reportlog/plugin.py`).

The plugin is shallowly embedded: Python dictionaries become ordered
association lists of `PyVal` key/value pairs, `json.dumps` becomes a
total Lean function returning `Option String` (`none` models the
`TypeError` raised on non-serializable data), the open report-log file
becomes a list of written lines inside the plugin state, and the single
HTTP POST performed by `send_report_to_dataset` is recorded as an
explicit request value whose response status is a parameter.
-/

set_option autoImplicit false

namespace ReportLog

/-- A Python runtime value, as far as the plugin manipulates them:
JSON-representable atoms, lists, dicts (ordered key/value pairs with
arbitrary keys, as Python dicts preserve insertion order), and `vobj`,
an opaque non-JSON-serializable object whose `str()` is the carried
string. -/
inductive PyVal where
  | vstr (s : String)
  | vint (n : Int)
  | vbool (b : Bool)
  | vnone
  | vlist (xs : List PyVal)
  | vdict (entries : List (PyVal × PyVal))
  | vobj (reprStr : String)
  deriving Repr

/-- A JSON document, the image of a successful `json.dumps`. -/
inductive Json where
  | jstr (s : String)
  | jint (n : Int)
  | jbool (b : Bool)
  | jnull
  | jarr (xs : List Json)
  | jobj (fields : List (String × Json))
  deriving Repr

/-- How `json.dumps` turns a Python dict key into a JSON object key:
strings stay, ints/bools/None are coerced to their JSON text, and any
other key raises `TypeError` (modelled as `none`). -/
def keyStr : PyVal → Option String
  | .vstr s => some s
  | .vint n => some (toString n)
  | .vbool true => some "true"
  | .vbool false => some "false"
  | .vnone => some "null"
  | _ => none

mutual
/-- The encoding half of `json.dumps`: `none` models the `TypeError`
raised on a non-serializable value. -/
def toJson : PyVal → Option Json
  | .vstr s => some (.jstr s)
  | .vint n => some (.jint n)
  | .vbool b => some (.jbool b)
  | .vnone => some .jnull
  | .vlist xs => (toJsonList xs).map .jarr
  | .vdict es => (toJsonFields es).map .jobj
  | .vobj _ => none

def toJsonList : List PyVal → Option (List Json)
  | [] => some []
  | x :: xs =>
    match toJson x, toJsonList xs with
    | some j, some js => some (j :: js)
    | _, _ => none

def toJsonFields : List (PyVal × PyVal) → Option (List (String × Json))
  | [] => some []
  | (k, v) :: es =>
    match keyStr k, toJson v, toJsonFields es with
    | some ks, some j, some fs => some ((ks, j) :: fs)
    | _, _, _ => none
end

/-- A value is JSON-serializable iff `json.dumps` succeeds on it. -/
def serializable (v : PyVal) : Bool := (toJson v).isSome

/-- A value is usable as a JSON object key (`str`, `int`, `bool`, `None`). -/
def keyOk (k : PyVal) : Bool := (keyStr k).isSome

/-- JSON string escaping of one character, as `json.dumps` performs it for
the characters that matter to line structure (quote, backslash, and the
control characters `\n`, `\r`, `\t`); other characters pass through.
(`json.dumps` additionally `\uXXXX`-escapes the remaining control
characters and non-ASCII text; none of those are the newline the sink
uses as record separator, so this simplification is observationally
irrelevant to line splitting.) -/
def escChar (c : Char) : List Char :=
  if c = '"' then ['\\', '"']
  else if c = '\\' then ['\\', '\\']
  else if c = '\n' then ['\\', 'n']
  else if c = '\r' then ['\\', 'r']
  else if c = '\t' then ['\\', 't']
  else [c]

/-- Characters of the JSON rendering of a string literal, quotes included. -/
def escString (s : String) : List Char :=
  '"' :: (s.data.flatMap escChar ++ ['"'])

mutual
/-- Characters of the rendering half of `json.dumps` (compact form). -/
def renderChars : Json → List Char
  | .jstr s => escString s
  | .jint n => (Int.repr n).data
  | .jbool true => "true".data
  | .jbool false => "false".data
  | .jnull => "null".data
  | .jarr xs => '[' :: (renderListChars xs ++ [']'])
  | .jobj fs => '\x7b' :: (renderFieldsChars fs ++ ['\x7d'])

def renderListChars : List Json → List Char
  | [] => []
  | [x] => renderChars x
  | x :: y :: xs => renderChars x ++ (',' :: renderListChars (y :: xs))

def renderFieldsChars : List (String × Json) → List Char
  | [] => []
  | [(k, v)] => escString k ++ (':' :: renderChars v)
  | (k, v) :: f :: fs =>
    escString k ++ (':' :: (renderChars v ++ (',' :: renderFieldsChars (f :: fs))))
end

/-- The rendering half of `json.dumps`. -/
def Json.render (j : Json) : String := String.mk (renderChars j)

/-- `json.dumps` on a Python value: `none` models the raised `TypeError`. -/
def dumps (v : PyVal) : Option String := (toJson v).map Json.render

mutual
/-- Models Python `str()` on the values the plugin handles. For the
opaque `vobj`, the carried string is its textual representation. For
containers, `str` delegates to `repr`, modelled by `pyRepr` below. -/
def pyStr : PyVal → String
  | .vstr s => s
  | .vint n => Int.repr n
  | .vbool true => "True"
  | .vbool false => "False"
  | .vnone => "None"
  | .vlist xs => "[" ++ pyReprList xs ++ "]"
  | .vdict es => "\x7b" ++ pyReprDict es ++ "\x7d"
  | .vobj r => r

/-- Models Python `repr()` (strings gain quotes; atoms as in `str`). -/
def pyRepr : PyVal → String
  | .vstr s => "\x27" ++ s ++ "\x27"
  | .vint n => Int.repr n
  | .vbool true => "True"
  | .vbool false => "False"
  | .vnone => "None"
  | .vlist xs => "[" ++ pyReprList xs ++ "]"
  | .vdict es => "\x7b" ++ pyReprDict es ++ "\x7d"
  | .vobj r => r

def pyReprList : List PyVal → String
  | [] => ""
  | [x] => pyRepr x
  | x :: y :: xs => pyRepr x ++ ", " ++ pyReprList (y :: xs)

def pyReprDict : List (PyVal × PyVal) → String
  | [] => ""
  | [(k, v)] => pyRepr k ++ ": " ++ pyRepr v
  | (k, v) :: e :: es => pyRepr k ++ ": " ++ pyRepr v ++ ", " ++ pyReprDict (e :: es)
end

/-- A Python dict as the plugin sees it: insertion-ordered key/value
pairs. Real dicts have pairwise-distinct keys; the operations below are
faithful on such lists. -/
abbrev Record := List (PyVal × PyVal)

/-- Python `==` between a stored value and a `str` literal: true exactly
when the value is an equal string (comparing a non-`str` to a `str`
yields `False`, it does not raise). -/
def pyEqStr (v : PyVal) (s : String) : Bool :=
  match v with
  | .vstr t => t = s
  | _ => false

/-- `d[k]` / `d.get(k)` for a string-literal subscript `k`: the value at
the first (in a real dict: only) key equal to `k`. -/
def lookupStr : Record → String → Option PyVal
  | [], _ => none
  | (k', v) :: r, k => if pyEqStr k' k then some v else lookupStr r k

/-- `d.get(k, dflt)`. -/
def getStrD (d : Record) (k : String) (dflt : PyVal) : PyVal :=
  (lookupStr d k).getD dflt

/-- In-place overwrite of the value stored at key `k` (keys keep their
insertion positions, as in a Python dict). -/
def overwriteStr : Record → String → PyVal → Record
  | [], _, _ => []
  | (k', v') :: r, k, v =>
    if pyEqStr k' k then (k', v) :: overwriteStr r k v
    else (k', v') :: overwriteStr r k v

/-- `d[k] = v` for a string-literal key: overwrite in place if the key is
present, else append (Python dicts keep insertion order). -/
def setStr (d : Record) (k : String) (v : PyVal) : Record :=
  if (lookupStr d k).isSome then overwriteStr d k v
  else d ++ [(.vstr k, v)]

/-- One iteration of the `cleanup_unserializable` loop (lines 195-200):
keep the entry when the singleton dict `{k: v}` still `json.dumps`-es,
otherwise replace the value by `str(v)`. The key is kept as-is in either
case. -/
def repair_entry (kv : PyVal × PyVal) : PyVal × PyVal :=
  match dumps (.vdict [kv]) with
  | some _ => kv
  | none => (kv.1, .vstr (pyStr kv.2))

/-- `cleanup_unserializable` (plugin.py lines 192-201): rebuild the dict
entry by entry with `repair_entry`. -/
def cleanup_unserializable (d : Record) : Record := d.map repair_entry

/-- The serialization phase of `persist_data` (lines 121-125):
`try: json.dumps(data) except TypeError: data = cleanup_unserializable(data);
json_dumps(data)`. Returns the record variable as left by the phase
together with `some json_text`, or `none` when the retry also raises
`TypeError` (which then escapes `persist_data`). -/
def serialize_with_guard (data : Record) : Record × Option String :=
  match dumps (.vdict data) with
  | some s => (data, some s)
  | none =>
    let d := cleanup_unserializable data
    (d, dumps (.vdict d))

/-- The two fields `persist_data` injects first (lines 119-120). -/
def annotate (uid : String) (data : Record) : Record :=
  setStr (setStr data "unique_id" (.vstr uid)) "parser" (.vstr "pytest-reportlog")

/-- Exceptions the embedded code can raise. -/
inductive PyError where
  | typeError
  | attributeError
  | keyError
  | indexError
  | httpError
  deriving DecidableEq, Repr

/-- Compression codec selected by `_open_filtered_writer` from the path
suffix. -/
inductive Codec where
  | plain
  | gzip
  | bz2
  | xz
  deriving DecidableEq, Repr

/-- An open report-log stream: its codec and the lines written so far
(each `write(json_data + "\n"); flush()` appends one committed line). -/
structure FileStream where
  codec : Codec
  lines : List String
  deriving DecidableEq, Repr

/-- The pytest `config` attributes the plugin reads. `none` models an
attribute that was never set (reading it raises `AttributeError`):
`pytest_configure` only sets `_report_log_dataset`, `_report_log_dataset_url`
and `_report_log_dataset_token` when the corresponding option is truthy. -/
structure Config where
  report_log_dataset : Option Bool
  report_log_dataset_url : Option String
  report_log_dataset_token : Option String
  report_log_exclude_logs_on_passed_tests : Bool
  deriving DecidableEq, Repr

/-- Mutable state of a `ReportLogPlugin` instance: the (possibly already
closed) stream, the configured path, and the run identifier. -/
structure PluginState where
  file : Option FileStream
  log_path : Option String
  unique_id : String
  deriving DecidableEq, Repr

/-- The single HTTP POST `send_report_to_dataset` performs, as observable
data. -/
structure HttpRequest where
  url : String
  authorization : String
  accept : String
  contentType : String
  body : Record
  deriving Repr

/-- Result of one `persist_data` call: the plugin state after the call
(mutations persist even when an exception is raised afterwards), the
HTTP requests issued, the final value of the local `data` variable, and
the exception that escaped, if any. -/
structure PersistResult where
  state : PluginState
  sent : List HttpRequest
  final : Record
  error : Option PyError
  deriving Repr

/-- Split a character list on a separator (groups between separators;
used to take a path's final component). -/
def splitOnChar (sep : Char) : List Char → List (List Char)
  | [] => [[]]
  | c :: rest =>
    if c = sep then [] :: splitOnChar sep rest
    else
      match splitOnChar sep rest with
      | [] => [[c]]
      | g :: gs => (c :: g) :: gs

/-- `pathlib.Path(p).suffix`: the final component's extension from its
last dot, empty when the dot is absent, leading or trailing. -/
def path_suffix (p : String) : String :=
  let name := (splitOnChar '/' p.data).getLastD []
  match name.reverse.findIdx? (fun c => c = '.') with
  | none => ""
  | some k =>
    let i := name.length - 1 - k
    if 0 < i ∧ i < name.length - 1 then String.mk (name.drop i) else ""

/-- `_open_filtered_writer` (lines 82-97): codec selection by suffix;
the fresh stream starts empty. -/
def open_filtered_writer (log_path : String) : FileStream :=
  if path_suffix log_path = ".gz" then ⟨.gzip, []⟩
  else if path_suffix log_path = ".bz2" then ⟨.bz2, []⟩
  else if path_suffix log_path = ".xz" then ⟨.xz, []⟩
  else ⟨.plain, []⟩

/-- `randint(lo, hi)` (both ends inclusive), with the random draw made
explicit as a seed. -/
def randint (lo hi seed : Nat) : Nat := lo + seed % (hi + 1 - lo)

/-- The run identifier built in `__init__` (line 110):
`f"test_report_{time.time_ns()}_{randint(100000, 999999)}"`. -/
def mkUniqueId (timeNs seed : Nat) : String :=
  "test_report_" ++ Nat.repr timeNs ++ "_" ++ Nat.repr (randint 100000 999999 seed)

/-- `ReportLogPlugin.__init__` (lines 101-111): when a path is given
(`Path(p)` objects are always truthy), create parent directories and
open the stream; otherwise leave `_file` as `None`. Either way generate
the run identifier. -/
def ReportLogPlugin_init (log_path : Option String) (timeNs seed : Nat) : PluginState :=
  match log_path with
  | some p => { file := some (open_filtered_writer p), log_path := some p,
                unique_id := mkUniqueId timeNs seed }
  | none => { file := none, log_path := none, unique_id := mkUniqueId timeNs seed }

/-- The command-line options (`pytest_addoption`, lines 25-57) with their
defaults: `--report-log` defaults to the string `"no.log"`, the dataset
flag to `False`, URL and token to `None`. -/
structure CmdOptions where
  report_log : String := "no.log"
  report_log_exclude_logs_on_passed_tests : Bool := false
  report_log_dataset : Bool := false
  report_log_dataset_url : Option String := none
  report_log_dataset_token : Option String := none
  deriving Repr

/-- Truthiness of `config.option.report_log_dataset_url` (and token): an
unset option or an empty string is falsy. -/
def truthyStrOpt : Option String → Bool
  | none => false
  | some s => !(s = "")

/-- `pytest_configure` (lines 60-72) for the coordinating process (no
`workerinput`): builds the `config` attributes and constructs/registers
plugin instances. When `report_log` is truthy one plugin is created;
when the dataset flag is set a second one is created and registered with
the same path. Returns the attribute view plus the created plugins with
their construction parameters. -/
def pytest_configure (opts : CmdOptions) (timeNs seed : Nat) :
    Config × List PluginState :=
  let cfg : Config :=
    { report_log_dataset := if opts.report_log_dataset then some true else none
      report_log_dataset_url :=
        if truthyStrOpt opts.report_log_dataset_url then opts.report_log_dataset_url else none
      report_log_dataset_token :=
        if truthyStrOpt opts.report_log_dataset_token then opts.report_log_dataset_token else none
      report_log_exclude_logs_on_passed_tests := opts.report_log_exclude_logs_on_passed_tests }
  let fromLog :=
    if !(opts.report_log = "") then [ReportLogPlugin_init (some opts.report_log) timeNs seed]
    else []
  let fromDataset :=
    if opts.report_log_dataset then [ReportLogPlugin_init (some opts.report_log) timeNs seed]
    else []
  (cfg, fromLog ++ fromDataset)

/-- `ReportLogPlugin.close` (lines 113-116): close and drop the stream
when one is held, otherwise do nothing. Never raises (the returned
`Option PyError` is the escaped exception). -/
def close (st : PluginState) : PluginState × Option PyError :=
  match st.file with
  | some _ => ({ st with file := none }, none)
  | none => (st, none)

/-- `requests.Response.raise_for_status()`: raises `HTTPError` exactly
for client-error (4xx) and server-error (5xx) status codes. -/
def raise_for_status (status : Nat) : Option PyError :=
  if 400 ≤ status ∧ status < 600 then some .httpError else none

/-- `send_report_to_dataset` (lines 13-22): one POST to
`url + "/services/collector/event"` with bearer-token and JSON headers
and the record as JSON body, then `raise_for_status`. The collector's
response status is a parameter. -/
def send_report_to_dataset (url token : String) (report_json : Record) (status : Nat) :
    HttpRequest × Option PyError :=
  ({ url := url ++ "/services/collector/event"
     authorization := "Bearer " ++ token
     accept := "application/json"
     contentType := "application/json"
     body := report_json }, raise_for_status status)

/-- The guard on line 126, `self._file is not "no.log"`: `_file` holds a
stream object or `None`, never that string, so this identity comparison
is true for every value `_file` can take. -/
def file_is_not_the_string_no_log (f : Option FileStream) : Bool :=
  match f with
  | some _ => true
  | none => true

/-- Lines 126-128 of `persist_data`: under the (always-true) line-126
guard, `self._file.write(json_data + "\n"); self._file.flush()`. Writing
on a closed (`None`) stream raises `AttributeError`. -/
def write_step (st : PluginState) (json_data : String) : PluginState × Option PyError :=
  if file_is_not_the_string_no_log st.file then
    match st.file with
    | none => (st, some .attributeError)
    | some f => ({ st with file := some ⟨f.codec, f.lines ++ [json_data]⟩ }, none)
  else (st, none)

/-- Lines 129-131 of `persist_data`: read `_report_log_dataset` (raising
`AttributeError` when `pytest_configure` never set it), and when truthy
read the URL and token attributes and call `send_report_to_dataset`. -/
def forward_step (cfg : Config) (status : Nat) (d : Record) :
    List HttpRequest × Option PyError :=
  match cfg.report_log_dataset with
  | none => ([], some .attributeError)
  | some false => ([], none)
  | some true =>
    match cfg.report_log_dataset_url with
    | none => ([], some .attributeError)
    | some url =>
      match cfg.report_log_dataset_token with
      | none => ([], some .attributeError)
      | some token =>
        let (req, err) := send_report_to_dataset url token d status
        ([req], err)

/-- `ReportLogPlugin.persist_data` (lines 118-131): annotate with
`unique_id` and `parser`, serialize under the guard, write the line to
the stream, then forward to the dataset when configured. The state is
returned even when an exception escapes, since the file mutation
survives the raise. -/
def persist_data (cfg : Config) (status : Nat) (st : PluginState) (data0 : Record) :
    PersistResult :=
  let data1 := annotate st.unique_id data0
  match serialize_with_guard data1 with
  | (d, none) => ⟨st, [], d, some .typeError⟩
  | (d, some json_data) =>
    match write_step st json_data with
    | (st', some e) => ⟨st', [], d, some e⟩
    | (st', none) =>
      let (reqs, ferr) := forward_step cfg status d
      ⟨st', reqs, d, ferr⟩

/-- The section labels stripped on passing tests (lines 153-157). -/
def strip_labels : List String :=
  ["Captured log setup", "Captured log call", "Captured log teardown"]

/-- `s[0]` on a serialized section: sections arrive as lists (pytest
serializes the `(name, content)` tuples to lists); indexing an empty
list raises `IndexError`, indexing a string yields its first character,
anything else is not subscriptable. `none` models the raise. -/
def pyIndex0 : PyVal → Option PyVal
  | .vlist (x :: _) => some x
  | .vstr s => if s = "" then none else some (.vstr (String.singleton s.front))
  | _ => none

/-- One step of the comprehension on lines 149-158: is section `s` kept,
i.e. is `s[0] not in strip_labels`? `none` models a raise from `s[0]`. -/
def section_kept (s : PyVal) : Option Bool :=
  match pyIndex0 s with
  | some l => some (!(strip_labels.any (fun t => pyEqStr l t)))
  | none => none

/-- The label of a well-formed serialized section (`s[0]`). -/
def section_label (s : PyVal) : PyVal := (pyIndex0 s).getD .vnone

/-- Is this label one of the three "Captured log ..." labels the plugin
strips on passing tests? -/
def is_strip_label (l : PyVal) : Bool := strip_labels.any (fun t => pyEqStr l t)

/-- The list comprehension `[s for s in data["sections"] if s[0] not in [...]]`. -/
def filter_sections : List PyVal → Option (List PyVal)
  | [] => some []
  | s :: rest =>
    match section_kept s, filter_sections rest with
    | some true, some r => some (s :: r)
    | some false, some r => some r
    | _, _ => none

/-- Lines 145-158 of `pytest_runtest_logreport`: when the
exclude-logs-on-passed-tests option is set and `data.get("outcome", "")`
equals `"passed"`, replace `data["sections"]` by the filtered list.
Reading `data["sections"]` raises `KeyError` when absent; iterating a
non-list value is modelled as a `TypeError` (pytest's serialization
always produces a list there). -/
def exclude_passed_logs (cfg : Config) (data : Record) : Record × Option PyError :=
  if cfg.report_log_exclude_logs_on_passed_tests
      && pyEqStr (getStrD data "outcome" (.vstr "")) "passed" then
    match lookupStr data "sections" with
    | none => (data, some .keyError)
    | some (.vlist ss) =>
      match filter_sections ss with
      | some kept => (setStr data "sections" (.vlist kept), none)
      | none => (data, some .indexError)
    | some _ => (data, some .typeError)
  else (data, none)

/-- `pytest_runtest_logreport` (lines 141-160). The external
`pytest_report_to_serializable` hook is a collaborator outside this
core; its output dict is the `data` argument here. -/
def pytest_runtest_logreport (cfg : Config) (status : Nat) (st : PluginState)
    (data : Record) : PersistResult :=
  match exclude_passed_logs cfg data with
  | (d, none) => persist_data cfg status st d
  | (d, some e) => ⟨st, [], d, some e⟩

/-- `pytest_sessionstart` (lines 133-135). -/
def pytest_sessionstart (cfg : Config) (status : Nat) (st : PluginState)
    (pytest_version : String) : PersistResult :=
  persist_data cfg status st
    [(.vstr "pytest_version", .vstr pytest_version),
     (.vstr "$report_type", .vstr "SessionStart")]

/-- `pytest_sessionfinish` (lines 137-139). -/
def pytest_sessionfinish (cfg : Config) (status : Nat) (st : PluginState)
    (exitstatus : Int) : PersistResult :=
  persist_data cfg status st
    [(.vstr "exitstatus", .vint exitstatus),
     (.vstr "$report_type", .vstr "SessionFinish")]

/-- `pytest_collectreport` (lines 179-183): the externally converted
dict is persisted unchanged. -/
def pytest_collectreport (cfg : Config) (status : Nat) (st : PluginState)
    (data : Record) : PersistResult :=
  persist_data cfg status st data

/-- `pytest_warning_recorded` (lines 162-177). -/
def pytest_warning_recorded (cfg : Config) (status : Nat) (st : PluginState)
    (category : Option String) (filename : String) (lineno : Int)
    (message : PyVal) (whenPhase : String) (location : PyVal) : PersistResult :=
  persist_data cfg status st
    [(.vstr "category", match category with | some c => .vstr c | none => .vnone),
     (.vstr "filename", .vstr filename),
     (.vstr "lineno", .vint lineno),
     (.vstr "message", message),
     (.vstr "$report_type", .vstr "WarningMessage"),
     (.vstr "when", .vstr whenPhase),
     (.vstr "location", location)]

/-- Persist a sequence of records one after the other, threading the
plugin state (file mutations survive any escaped exception, as they do
in the Python process). -/
def run_persist_all (cfg : Config) (status : Nat) (st : PluginState)
    (rs : List Record) : PluginState :=
  rs.foldl (fun s r => (persist_data cfg status s r).state) st

/-- The JSON line `persist_data` writes for an incoming record, as a
function of the run identifier (the only state it depends on). -/
def json_line (uid : String) (r : Record) : Option String :=
  (serialize_with_guard (annotate uid r)).2

/-- Characters that must never occur inside a rendered JSON line, lest
the one-record-per-line discipline of the sink break: the newline
terminator and the carriage return (also a line break for a reader). -/
abbrev lineSafeChar (c : Char) : Prop := c ≠ '\n' ∧ c ≠ '\r'

/-! ### Serialization lemmas -/

theorem toJsonFields_isSome_eq (es : List (PyVal × PyVal)) :
    (toJsonFields es).isSome = es.all (fun kv => keyOk kv.1 && serializable kv.2) := by
  induction es with
  | nil => rfl
  | cons kv rest ih =>
    obtain ⟨k, v⟩ := kv
    rw [List.all_cons, ← ih]
    simp only [toJsonFields, keyOk, serializable]
    cases keyStr k <;> cases toJson v <;> cases toJsonFields rest <;> rfl

theorem dumps_vdict_isSome (es : List (PyVal × PyVal)) :
    (dumps (.vdict es)).isSome = es.all (fun kv => keyOk kv.1 && serializable kv.2) := by
  rw [← toJsonFields_isSome_eq]
  simp only [dumps, toJson]
  cases toJsonFields es <;> rfl

theorem dumps_singleton_isSome (k v : PyVal) :
    (dumps (.vdict [(k, v)])).isSome = (keyOk k && serializable v) := by
  rw [dumps_vdict_isSome]; simp

theorem dumps_render (v : PyVal) (s : String) (h : dumps v = some s) :
    ∃ j : Json, toJson v = some j ∧ s = Json.render j := by
  unfold dumps at h
  cases hj : toJson v with
  | none => rw [hj] at h; cases h
  | some j => rw [hj] at h; exact ⟨j, rfl, by cases h; rfl⟩

theorem repair_entry_fst (kv : PyVal × PyVal) : (repair_entry kv).1 = kv.1 := by
  unfold repair_entry
  cases dumps (.vdict [kv]) <;> rfl

theorem repair_entry_val_serializable (kv : PyVal × PyVal) :
    serializable (repair_entry kv).2 = true := by
  obtain ⟨k, v⟩ := kv
  unfold repair_entry
  cases h : dumps (.vdict [(k, v)]) with
  | none => rfl
  | some s =>
    have hs : (keyOk k && serializable v) = true := by
      rw [← dumps_singleton_isSome k v, h]; rfl
    simp only [Bool.and_eq_true] at hs
    exact hs.2

theorem cleanup_dumps_isSome (d : Record) (hk : ∀ kv ∈ d, keyOk kv.1 = true) :
    (dumps (.vdict (cleanup_unserializable d))).isSome = true := by
  rw [dumps_vdict_isSome, List.all_eq_true]
  intro kv hkv
  obtain ⟨kv0, hkv0, rfl⟩ := List.mem_map.mp hkv
  rw [Bool.and_eq_true]
  exact ⟨by rw [repair_entry_fst]; exact hk kv0 hkv0, repair_entry_val_serializable kv0⟩

theorem serialize_with_guard_isSome (d : Record) (hk : ∀ kv ∈ d, keyOk kv.1 = true) :
    ((serialize_with_guard d).2).isSome = true := by
  unfold serialize_with_guard
  cases h : dumps (.vdict d) with
  | some s => rfl
  | none => simpa using cleanup_dumps_isSome d hk

theorem serialize_with_guard_render (d : Record) (s : String)
    (h : (serialize_with_guard d).2 = some s) : ∃ j : Json, s = Json.render j := by
  unfold serialize_with_guard at h
  cases hd : dumps (.vdict d) with
  | some t =>
    rw [hd] at h
    obtain ⟨j, _, hr⟩ := dumps_render _ _ hd
    cases h
    exact ⟨j, hr⟩
  | none =>
    rw [hd] at h
    simp only at h
    obtain ⟨j, _, hr⟩ := dumps_render _ _ h
    exact ⟨j, hr⟩

/-- The record left behind by the serialization phase: the annotated
input, or its cleaned-up version. -/
theorem serialize_with_guard_fst (d : Record) :
    (serialize_with_guard d).1 = d ∨
      (serialize_with_guard d).1 = cleanup_unserializable d := by
  unfold serialize_with_guard
  cases dumps (.vdict d) with
  | some s => exact Or.inl rfl
  | none => exact Or.inr rfl

/-! ### Dict-operation lemmas -/

theorem pyEqStr_eq {a : PyVal} {k : String} (h : pyEqStr a k = true) : a = .vstr k := by
  cases a <;> simp_all [pyEqStr]

theorem lookupStr_append_single (d : Record) (k k' : String) (v : PyVal)
    (h : lookupStr d k' = none) :
    lookupStr (d ++ [(.vstr k, v)]) k' = if k = k' then some v else none := by
  induction d with
  | nil => simp [lookupStr, pyEqStr]
  | cons kv r ih =>
    obtain ⟨a, b⟩ := kv
    cases hc : pyEqStr a k' with
    | true => simp [lookupStr, hc] at h
    | false =>
      simp only [lookupStr, hc] at h
      simp only [List.cons_append, lookupStr, hc, Bool.false_eq_true, if_false]
      exact ih (by simpa using h)

theorem lookupStr_append_single_ne (d : Record) (k k' : String) (v : PyVal)
    (hne : k ≠ k') :
    lookupStr (d ++ [(.vstr k, v)]) k' = lookupStr d k' := by
  induction d with
  | nil => simp [lookupStr, pyEqStr, hne]
  | cons kv r ih =>
    obtain ⟨a, b⟩ := kv
    cases hc : pyEqStr a k' <;>
      simp [List.cons_append, lookupStr, hc, ih]

theorem lookupStr_overwriteStr (d : Record) (k : String) (v : PyVal)
    (h : (lookupStr d k).isSome = true) :
    lookupStr (overwriteStr d k v) k = some v := by
  induction d with
  | nil => simp [lookupStr] at h
  | cons kv r ih =>
    obtain ⟨a, b⟩ := kv
    cases hc : pyEqStr a k with
    | true => simp [overwriteStr, lookupStr, hc]
    | false =>
      simp only [lookupStr, hc] at h
      simp only [overwriteStr, hc, Bool.false_eq_true, if_false, lookupStr]
      exact ih (by simpa using h)

theorem lookupStr_setStr_self (d : Record) (k : String) (v : PyVal) :
    lookupStr (setStr d k v) k = some v := by
  unfold setStr
  split
  case isTrue h => exact lookupStr_overwriteStr d k v h
  case isFalse h =>
    have hn : lookupStr d k = none := by
      rcases hl : lookupStr d k with _ | w
      · rfl
      · exact absurd (by simp [hl]) h
    rw [lookupStr_append_single d k k v hn]
    simp

theorem lookupStr_overwriteStr_ne (d : Record) (k k' : String) (v : PyVal)
    (hne : k ≠ k') :
    lookupStr (overwriteStr d k v) k' = lookupStr d k' := by
  induction d with
  | nil => rfl
  | cons kv r ih =>
    obtain ⟨a, b⟩ := kv
    cases hc : pyEqStr a k with
    | true =>
      have ha : a = .vstr k := pyEqStr_eq hc
      subst ha
      have hc' : pyEqStr (PyVal.vstr k) k' = false := by
        simp [pyEqStr, hne]
      simp [overwriteStr, lookupStr, hc, hc', ih]
    | false =>
      cases hc' : pyEqStr a k' <;>
        simp [overwriteStr, lookupStr, hc, hc', ih]

theorem lookupStr_setStr_ne (d : Record) (k k' : String) (v : PyVal)
    (hne : k ≠ k') :
    lookupStr (setStr d k v) k' = lookupStr d k' := by
  unfold setStr
  split
  · exact lookupStr_overwriteStr_ne d k k' v hne
  · exact lookupStr_append_single_ne d k k' v hne

theorem overwriteStr_keyOk (d : Record) (k : String) (v : PyVal)
    (hk : ∀ kv ∈ d, keyOk kv.1 = true) :
    ∀ kv ∈ overwriteStr d k v, keyOk kv.1 = true := by
  induction d with
  | nil => intro kv hkv; cases hkv
  | cons kv0 r ih =>
    obtain ⟨a, b⟩ := kv0
    intro kv hkv
    have hka : keyOk a = true := hk (a, b) (List.mem_cons_self _ _)
    have hkr : ∀ kv ∈ r, keyOk kv.1 = true := fun x hx => hk x (List.mem_cons_of_mem _ hx)
    cases hc : pyEqStr a k <;> simp [overwriteStr, hc] at hkv <;>
      rcases hkv with rfl | h
    · exact hka
    · exact ih hkr kv h
    · exact hka
    · exact ih hkr kv h

theorem setStr_keyOk (d : Record) (k : String) (v : PyVal)
    (hk : ∀ kv ∈ d, keyOk kv.1 = true) :
    ∀ kv ∈ setStr d k v, keyOk kv.1 = true := by
  intro kv hkv
  unfold setStr at hkv
  split at hkv
  · exact overwriteStr_keyOk d k v hk kv hkv
  · rcases List.mem_append.mp hkv with h | h
    · exact hk kv h
    · simp only [List.mem_singleton] at h
      subst h
      rfl

theorem annotate_keyOk (uid : String) (d : Record)
    (hk : ∀ kv ∈ d, keyOk kv.1 = true) :
    ∀ kv ∈ annotate uid d, keyOk kv.1 = true :=
  setStr_keyOk _ _ _ (setStr_keyOk _ _ _ hk)

theorem lookupStr_annotate_uid (uid : String) (d : Record) :
    lookupStr (annotate uid d) "unique_id" = some (.vstr uid) := by
  unfold annotate
  rw [lookupStr_setStr_ne _ _ _ _ (by decide), lookupStr_setStr_self]

theorem lookupStr_annotate_parser_tag (uid : String) (d : Record) :
    lookupStr (annotate uid d) "parser" = some (.vstr "pytest-reportlog") :=
  lookupStr_setStr_self _ _ _

theorem lookupStr_cleanup_vstr (d : Record) (k s : String)
    (h : lookupStr d k = some (.vstr s)) :
    lookupStr (cleanup_unserializable d) k = some (.vstr s) := by
  induction d with
  | nil => cases h
  | cons kv r ih =>
    obtain ⟨a, b⟩ := kv
    cases hc : pyEqStr a k with
    | true =>
      have ha := pyEqStr_eq hc
      subst ha
      simp only [lookupStr, hc] at h
      simp only [if_true, eq_self_iff_true, if_pos, Option.some_inj] at h
      subst h
      simp [cleanup_unserializable, repair_entry, lookupStr, hc, dumps, toJson,
        toJsonFields, keyStr, Json.render]
    | false =>
      simp only [lookupStr, hc, Bool.false_eq_true, if_false] at h
      have ih' := ih h
      rcases hre : repair_entry (a, b) with ⟨a', b'⟩
      have ha' : a' = a := by
        have := repair_entry_fst (a, b)
        rw [hre] at this
        exact this
      subst ha'
      simp only [cleanup_unserializable, List.map_cons] at ih' ⊢
      rw [hre]
      simp only [lookupStr, hc, Bool.false_eq_true, if_false]
      exact ih'

/-! ### persist_data case-analysis lemmas -/

theorem persist_data_serialized (cfg : Config) (status : Nat) (st : PluginState)
    (d : Record) (f : FileStream) (line : String)
    (hf : st.file = some f)
    (hl : (serialize_with_guard (annotate st.unique_id d)).2 = some line) :
    persist_data cfg status st d =
      ⟨{ st with file := some ⟨f.codec, f.lines ++ [line]⟩ },
       (forward_step cfg status (serialize_with_guard (annotate st.unique_id d)).1).1,
       (serialize_with_guard (annotate st.unique_id d)).1,
       (forward_step cfg status (serialize_with_guard (annotate st.unique_id d)).1).2⟩ := by
  rcases hsg : serialize_with_guard (annotate st.unique_id d) with ⟨fin, ol⟩
  rw [hsg] at hl
  simp only at hl
  subst hl
  rcases hfw : forward_step cfg status fin with ⟨reqs, ferr⟩
  unfold persist_data write_step
  simp [hsg, hf, file_is_not_the_string_no_log, hfw]

theorem persist_data_typeError (cfg : Config) (status : Nat) (st : PluginState)
    (d : Record)
    (hl : (serialize_with_guard (annotate st.unique_id d)).2 = none) :
    persist_data cfg status st d =
      ⟨st, [], (serialize_with_guard (annotate st.unique_id d)).1, some .typeError⟩ := by
  rcases hsg : serialize_with_guard (annotate st.unique_id d) with ⟨fin, ol⟩
  rw [hsg] at hl
  simp only at hl
  subst hl
  unfold persist_data
  simp [hsg]

theorem persist_data_final (cfg : Config) (status : Nat) (st : PluginState) (d : Record) :
    (persist_data cfg status st d).final =
      (serialize_with_guard (annotate st.unique_id d)).1 := by
  rcases hsg : serialize_with_guard (annotate st.unique_id d) with ⟨fin, ol⟩
  unfold persist_data write_step
  cases ol with
  | none => simp [hsg]
  | some line =>
    cases hf : st.file with
    | none => simp [hsg, hf, file_is_not_the_string_no_log]
    | some f =>
      rcases hfw : forward_step cfg status fin with ⟨reqs, ferr⟩
      simp [hsg, hf, file_is_not_the_string_no_log, hfw]

theorem persist_data_closed (cfg : Config) (status : Nat) (st : PluginState)
    (d : Record) (line : String)
    (hf : st.file = none)
    (hl : (serialize_with_guard (annotate st.unique_id d)).2 = some line) :
    persist_data cfg status st d =
      ⟨st, [], (serialize_with_guard (annotate st.unique_id d)).1,
        some .attributeError⟩ := by
  rcases hsg : serialize_with_guard (annotate st.unique_id d) with ⟨fin, ol⟩
  rw [hsg] at hl
  simp only at hl
  subst hl
  unfold persist_data write_step
  simp [hsg, hf, file_is_not_the_string_no_log]

theorem forward_step_error_cases (cfg : Config) (status : Nat) (d : Record) :
    (forward_step cfg status d).2 = none ∨
    (forward_step cfg status d).2 = some .attributeError ∨
    (forward_step cfg status d).2 = some .httpError := by
  unfold forward_step send_report_to_dataset raise_for_status
  rcases cfg.report_log_dataset with _ | b
  · simp
  · cases b
    · simp
    · rcases cfg.report_log_dataset_url with _ | url
      · simp
      · rcases cfg.report_log_dataset_token with _ | tok
        · simp
        · split <;> (simp; try omega)

theorem persist_data_uid (cfg : Config) (status : Nat) (st : PluginState) (d : Record) :
    (persist_data cfg status st d).state.unique_id = st.unique_id := by
  rcases hsg : serialize_with_guard (annotate st.unique_id d) with ⟨fin, ol⟩
  unfold persist_data write_step
  cases ol with
  | none => simp [hsg]
  | some line =>
    cases hf : st.file with
    | none => simp [hsg, hf, file_is_not_the_string_no_log]
    | some f =>
      rcases hfw : forward_step cfg status fin with ⟨reqs, ferr⟩
      simp [hsg, hf, file_is_not_the_string_no_log, hfw]

theorem persist_final_lookup_uid (cfg : Config) (status : Nat) (st : PluginState)
    (d : Record) :
    lookupStr (persist_data cfg status st d).final "unique_id" =
      some (.vstr st.unique_id) := by
  rw [persist_data_final]
  rcases serialize_with_guard_fst (annotate st.unique_id d) with h | h <;> rw [h]
  · exact lookupStr_annotate_uid _ _
  · exact lookupStr_cleanup_vstr _ _ _ (lookupStr_annotate_uid _ _)

theorem persist_final_lookup_parser_tag (cfg : Config) (status : Nat) (st : PluginState)
    (d : Record) :
    lookupStr (persist_data cfg status st d).final "parser" =
      some (.vstr "pytest-reportlog") := by
  rw [persist_data_final]
  rcases serialize_with_guard_fst (annotate st.unique_id d) with h | h <;> rw [h]
  · exact lookupStr_annotate_parser_tag _ _
  · exact lookupStr_cleanup_vstr _ _ _ (lookupStr_annotate_parser_tag _ _)

/-! ### No line break inside a rendered JSON document -/

theorem digitChar_lineSafe (m : Nat) : lineSafeChar (Nat.digitChar m) := by
  match m with
  | 0 | 1 | 2 | 3 | 4 | 5 | 6 | 7 | 8 | 9 | 10 | 11 | 12 | 13 | 14 | 15 => decide
  | n + 16 =>
    unfold Nat.digitChar
    repeat rw [if_neg (by omega)]
    decide

theorem toDigitsCore_lineSafe (b f n : Nat) (acc : List Char)
    (hacc : ∀ c ∈ acc, lineSafeChar c) :
    ∀ c ∈ Nat.toDigitsCore b f n acc, lineSafeChar c := by
  induction f generalizing n acc with
  | zero => simpa [Nat.toDigitsCore] using hacc
  | succ f ih =>
    intro c hc
    simp only [Nat.toDigitsCore] at hc
    split at hc
    · rcases List.mem_cons.mp hc with rfl | h
      · exact digitChar_lineSafe _
      · exact hacc _ h
    · refine ih (n / b) (Nat.digitChar (n % b) :: acc) ?_ c hc
      intro c' hc'
      rcases List.mem_cons.mp hc' with rfl | h
      · exact digitChar_lineSafe _
      · exact hacc _ h

theorem natRepr_lineSafe (n : Nat) : ∀ c ∈ (Nat.repr n).data, lineSafeChar c := by
  intro c hc
  exact toDigitsCore_lineSafe 10 (n + 1) n [] (by intro c' h; cases h) c hc

theorem intRepr_lineSafe (n : Int) : ∀ c ∈ (Int.repr n).data, lineSafeChar c := by
  cases n with
  | ofNat m => exact natRepr_lineSafe m
  | negSucc m =>
    intro c hc
    have hd : (Int.repr (Int.negSucc m)).data = '-' :: (Nat.repr (m + 1)).data := rfl
    rw [hd] at hc
    rcases List.mem_cons.mp hc with rfl | h
    · exact ⟨by decide, by decide⟩
    · exact natRepr_lineSafe _ c h

theorem escChar_lineSafe (c : Char) : ∀ c' ∈ escChar c, lineSafeChar c' := by
  intro c' hc'
  unfold escChar at hc'
  split_ifs at hc' with h1 h2 h3 h4 h5 <;>
    simp only [List.mem_cons, List.not_mem_nil, or_false] at hc'
  · rcases hc' with rfl | rfl <;> exact ⟨by decide, by decide⟩
  · rcases hc' with rfl | rfl <;> exact ⟨by decide, by decide⟩
  · rcases hc' with rfl | rfl <;> exact ⟨by decide, by decide⟩
  · rcases hc' with rfl | rfl <;> exact ⟨by decide, by decide⟩
  · rcases hc' with rfl | rfl <;> exact ⟨by decide, by decide⟩
  · subst hc'
    exact ⟨h3, h4⟩

theorem escString_lineSafe (s : String) : ∀ c ∈ escString s, lineSafeChar c := by
  intro c hc
  unfold escString at hc
  rcases List.mem_cons.mp hc with rfl | hc
  · exact ⟨by decide, by decide⟩
  rcases List.mem_append.mp hc with hc | hc
  · obtain ⟨c0, _, hc0⟩ := List.mem_flatMap.mp hc
    exact escChar_lineSafe c0 c hc0
  · rcases List.mem_singleton.mp hc with rfl
    exact ⟨by decide, by decide⟩

mutual
theorem renderChars_lineSafe : ∀ j : Json, ∀ c ∈ renderChars j, lineSafeChar c
  | .jstr s => escString_lineSafe s
  | .jint n => fun c hc => intRepr_lineSafe n c hc
  | .jbool true => by decide
  | .jbool false => by decide
  | .jnull => by decide
  | .jarr xs => by
    intro c hc
    simp only [renderChars] at hc
    rcases List.mem_cons.mp hc with rfl | hc
    · exact ⟨by decide, by decide⟩
    rcases List.mem_append.mp hc with hc | hc
    · exact renderListChars_lineSafe xs c hc
    · rcases List.mem_singleton.mp hc with rfl
      exact ⟨by decide, by decide⟩
  | .jobj fs => by
    intro c hc
    simp only [renderChars] at hc
    rcases List.mem_cons.mp hc with rfl | hc
    · exact ⟨by decide, by decide⟩
    rcases List.mem_append.mp hc with hc | hc
    · exact renderFieldsChars_lineSafe fs c hc
    · rcases List.mem_singleton.mp hc with rfl
      exact ⟨by decide, by decide⟩

theorem renderListChars_lineSafe : ∀ l : List Json, ∀ c ∈ renderListChars l, lineSafeChar c
  | [] => by intro c hc; cases hc
  | [x] => fun c hc => renderChars_lineSafe x c hc
  | x :: y :: xs => by
    intro c hc
    simp only [renderListChars] at hc
    rcases List.mem_append.mp hc with hc | hc
    · exact renderChars_lineSafe x c hc
    · rcases List.mem_cons.mp hc with rfl | hc
      · exact ⟨by decide, by decide⟩
      · exact renderListChars_lineSafe (y :: xs) c hc

theorem renderFieldsChars_lineSafe :
    ∀ l : List (String × Json), ∀ c ∈ renderFieldsChars l, lineSafeChar c
  | [] => by intro c hc; cases hc
  | [(k, v)] => by
    intro c hc
    simp only [renderFieldsChars] at hc
    rcases List.mem_append.mp hc with hc | hc
    · exact escString_lineSafe k c hc
    · rcases List.mem_cons.mp hc with rfl | hc
      · exact ⟨by decide, by decide⟩
      · exact renderChars_lineSafe v c hc
  | (k, v) :: f :: fs => by
    intro c hc
    simp only [renderFieldsChars] at hc
    rcases List.mem_append.mp hc with hc | hc
    · exact escString_lineSafe k c hc
    rcases List.mem_cons.mp hc with rfl | hc
    · exact ⟨by decide, by decide⟩
    rcases List.mem_append.mp hc with hc | hc
    · exact renderChars_lineSafe v c hc
    rcases List.mem_cons.mp hc with rfl | hc
    · exact ⟨by decide, by decide⟩
    exact renderFieldsChars_lineSafe (f :: fs) c hc
end

theorem render_lineSafe (j : Json) : ∀ c ∈ (Json.render j).data, lineSafeChar c :=
  fun c hc => renderChars_lineSafe j c hc

theorem persist_data_file_only (cfg : Config) (status : Nat) (st : PluginState)
    (d : Record) (f : FileStream) (line : String)
    (hcf : cfg.report_log_dataset = some false)
    (hf : st.file = some f)
    (hl : json_line st.unique_id d = some line) :
    (persist_data cfg status st d).state =
      { st with file := some ⟨f.codec, f.lines ++ [line]⟩ } ∧
    (persist_data cfg status st d).error = none := by
  unfold json_line at hl
  rw [persist_data_serialized cfg status st d f line hf hl]
  exact ⟨rfl, by simp [forward_step, hcf]⟩

theorem run_persist_all_file_only (cfg : Config) (status : Nat)
    (hcf : cfg.report_log_dataset = some false)
    (rs : List Record) (uid : String) (lp : Option String) (c : Codec)
    (acc : List String)
    (hk : ∀ r ∈ rs, ∀ kv ∈ r, keyOk kv.1 = true) :
    run_persist_all cfg status ⟨some ⟨c, acc⟩, lp, uid⟩ rs =
      ⟨some ⟨c, acc ++ rs.map (fun r => (json_line uid r).getD "")⟩, lp, uid⟩ := by
  induction rs generalizing acc with
  | nil => simp [run_persist_all]
  | cons r rest ih =>
    have hkr : ∀ kv ∈ r, keyOk kv.1 = true := hk r (List.mem_cons_self _ _)
    have hs := serialize_with_guard_isSome (annotate uid r) (annotate_keyOk uid r hkr)
    rcases hl : json_line uid r with _ | line
    · unfold json_line at hl
      rw [hl] at hs
      cases hs
    · have hstep := persist_data_file_only cfg status ⟨some ⟨c, acc⟩, lp, uid⟩ r
        ⟨c, acc⟩ line hcf rfl hl
      have ih' := ih (acc ++ [line]) (fun x hx => hk x (List.mem_cons_of_mem _ hx))
      unfold run_persist_all at ih' ⊢
      rw [List.foldl_cons, hstep.1]
      rw [ih']
      simp [hl]

/-! ### Claim theorems -/

/-- C7: the run identifier is generated once at construction as
`test_report_{time_ns}_{randint(100000, 999999)}` with the random part
in `[100000, 999999]`; `persist_data` never changes it, and the record
dispatched by every persist call carries exactly that identifier under
`unique_id`, together with the constant `parser` tag
`pytest-reportlog`. -/
theorem C7_unique_id_generated_once_and_stamped (lp : Option String)
    (t seed : Nat) (cfg : Config) (status : Nat) (st : PluginState) (d : Record) :
    (∃ r, 100000 ≤ r ∧ r ≤ 999999 ∧
      (ReportLogPlugin_init lp t seed).unique_id =
        "test_report_" ++ Nat.repr t ++ "_" ++ Nat.repr r) ∧
    (persist_data cfg status st d).state.unique_id = st.unique_id ∧
    lookupStr (persist_data cfg status st d).final "unique_id" =
      some (.vstr st.unique_id) ∧
    lookupStr (persist_data cfg status st d).final "parser" =
      some (.vstr "pytest-reportlog") := by
  refine ⟨⟨randint 100000 999999 seed, ?_, ?_, ?_⟩,
    persist_data_uid cfg status st d,
    persist_final_lookup_uid cfg status st d,
    persist_final_lookup_parser_tag cfg status st d⟩
  · exact Nat.le_add_right _ _
  · have h : seed % 900000 < 900000 := Nat.mod_lt _ (by omega)
    unfold randint
    omega
  · cases lp <;> rfl

/-- C5 amended: with both sinks configured, a forwarding failure — a
4xx/5xx response such as the simulated 500 (not every non-2xx status:
see the counterexample) — makes `persist_data` raise `HTTPError`, but
the stream has already received the full record's JSON line before the
forwarding call: the error never loses the file copy, and the POST
carried the same final record. -/
theorem C5_file_written_before_forwarding_failure (cfg : Config) (status : Nat)
    (st : PluginState) (d : Record) (f : FileStream) (url token : String)
    (hflag : cfg.report_log_dataset = some true)
    (hurl : cfg.report_log_dataset_url = some url)
    (htok : cfg.report_log_dataset_token = some token)
    (hf : st.file = some f)
    (hk : ∀ kv ∈ d, keyOk kv.1 = true)
    (hstatus : 400 ≤ status ∧ status < 600) :
    ∃ line, json_line st.unique_id d = some line ∧
      (persist_data cfg status st d).error = some .httpError ∧
      (persist_data cfg status st d).state.file = some ⟨f.codec, f.lines ++ [line]⟩ ∧
      (persist_data cfg status st d).sent =
        [{ url := url ++ "/services/collector/event"
           authorization := "Bearer " ++ token
           accept := "application/json"
           contentType := "application/json"
           body := (persist_data cfg status st d).final }] := by
  have hs := serialize_with_guard_isSome (annotate st.unique_id d)
    (annotate_keyOk st.unique_id d hk)
  rcases hsg : (serialize_with_guard (annotate st.unique_id d)).2 with _ | line
  · rw [hsg] at hs; cases hs
  · refine ⟨line, hsg, ?_, ?_, ?_⟩ <;>
      rw [persist_data_serialized cfg status st d f line hf hsg] <;>
      simp [forward_step, hflag, hurl, htok, send_report_to_dataset,
        raise_for_status, hstatus.1, hstatus.2]

theorem pyEqStr_iff (v : PyVal) (s : String) : pyEqStr v s = true ↔ v = .vstr s := by
  constructor
  · exact pyEqStr_eq
  · rintro rfl
    simp [pyEqStr]

theorem filter_sections_wf (ss : List PyVal)
    (hwf : ∀ s ∈ ss, ∃ l rest, s = .vlist (l :: rest)) :
    filter_sections ss =
      some (ss.filter (fun s => !is_strip_label (section_label s))) := by
  induction ss with
  | nil => rfl
  | cons s rest ih =>
    obtain ⟨l, r0, rfl⟩ := hwf _ (List.mem_cons_self _ _)
    have ih' := ih (fun x hx => hwf x (List.mem_cons_of_mem _ hx))
    have hk : section_kept (.vlist (l :: r0)) = some (!is_strip_label l) := by
      simp [section_kept, pyIndex0, is_strip_label]
    unfold filter_sections
    rw [hk, ih']
    cases hb : is_strip_label l <;>
      simp [List.filter_cons, section_label, pyIndex0, hb]

/-- C6: when the exclude-logs option is on and the converted record's
outcome is `"passed"`, `pytest_runtest_logreport` (lines 145-158,
embedded as `exclude_passed_logs`) removes exactly the sections whose
label is one of the three "Captured log ..." labels, keeps every other
section in order, and leaves every other field of the record untouched;
when the option is off or the outcome differs, the record passes through
entirely unchanged. -/
theorem C6_exclude_logs_on_passed (cfg : Config) (data : Record) (ss : List PyVal)
    (hsec : lookupStr data "sections" = some (.vlist ss))
    (hwf : ∀ s ∈ ss, ∃ l rest, s = .vlist (l :: rest)) :
    ((cfg.report_log_exclude_logs_on_passed_tests = true ∧
        getStrD data "outcome" (.vstr "") = .vstr "passed") →
      (exclude_passed_logs cfg data).2 = none ∧
      lookupStr (exclude_passed_logs cfg data).1 "sections" =
        some (.vlist (ss.filter (fun s => !is_strip_label (section_label s)))) ∧
      ∀ k, k ≠ "sections" →
        lookupStr (exclude_passed_logs cfg data).1 k = lookupStr data k) ∧
    ((cfg.report_log_exclude_logs_on_passed_tests = false ∨
        getStrD data "outcome" (.vstr "") ≠ .vstr "passed") →
      exclude_passed_logs cfg data = (data, none)) := by
  constructor
  · rintro ⟨hopt, hout⟩
    have hcond : (cfg.report_log_exclude_logs_on_passed_tests &&
        pyEqStr (getStrD data "outcome" (.vstr "")) "passed") = true := by
      rw [hopt, hout]
      simp [pyEqStr]
    unfold exclude_passed_logs
    rw [if_pos hcond]
    simp only [hsec, filter_sections_wf ss hwf]
    refine ⟨by trivial, lookupStr_setStr_self _ _ _, fun k hkne => ?_⟩
    exact lookupStr_setStr_ne _ _ _ _ (Ne.symm hkne)
  · intro hor
    have hcond : (cfg.report_log_exclude_logs_on_passed_tests &&
        pyEqStr (getStrD data "outcome" (.vstr "")) "passed") = false := by
      rcases hor with h | h
      · simp [h]
      · cases hb : pyEqStr (getStrD data "outcome" (.vstr "")) "passed"
        · simp
        · exact absurd (pyEqStr_eq hb) h
    unfold exclude_passed_logs
    rw [if_neg (by simp [hcond])]

/-- C8: persisting `n` records to a plain-text sink (forwarding
disabled, i.e. the flag attribute set to `False`) writes one JSON line
per record — appended in persist order and flushed each time, so the
file holds exactly `n` lines afterwards — where the `i`-th line is the
serialization of the `i`-th record, every line is the rendering of a
JSON document (hence independently parseable as JSON), and no line
contains an internal line break. Records are assumed serializable up to
the guard's powers (all top-level keys of JSON key type). -/
theorem C8_plain_sink_ndjson (cfg : Config) (status : Nat) (uid : String)
    (lp : Option String) (rs : List Record)
    (hcf : cfg.report_log_dataset = some false)
    (hk : ∀ r ∈ rs, ∀ kv ∈ r, keyOk kv.1 = true) :
    ∃ lines : List String,
      (run_persist_all cfg status ⟨some ⟨.plain, []⟩, lp, uid⟩ rs).file =
        some ⟨.plain, lines⟩ ∧
      lines.length = rs.length ∧
      (∀ i (hi : i < rs.length) (hi' : i < lines.length),
        some (lines.get ⟨i, hi'⟩) = json_line uid (rs.get ⟨i, hi⟩)) ∧
      (∀ s ∈ lines, (∃ j : Json, s = Json.render j) ∧
        ∀ c ∈ s.data, c ≠ '\n' ∧ c ≠ '\r') := by
  refine ⟨rs.map (fun r => (json_line uid r).getD ""), ?_, by simp, ?_, ?_⟩
  · rw [run_persist_all_file_only cfg status hcf rs uid lp .plain [] hk]
    simp
  · intro i hi hi'
    have hkr := hk (rs.get ⟨i, hi⟩) (rs.get_mem _ _)
    have hs := serialize_with_guard_isSome (annotate uid (rs.get ⟨i, hi⟩))
      (annotate_keyOk uid _ hkr)
    rcases hl : json_line uid (rs.get ⟨i, hi⟩) with _ | line
    · unfold json_line at hl
      rw [hl] at hs
      cases hs
    · have hmap : (rs.map (fun r => (json_line uid r).getD "")).get ⟨i, hi'⟩ =
          (json_line uid (rs.get ⟨i, hi⟩)).getD "" := by
        simp
      rw [hmap, hl]
      rfl
  · intro s hs'
    obtain ⟨r, hr, rfl⟩ := List.mem_map.mp hs'
    have hkr := hk r hr
    have hsome := serialize_with_guard_isSome (annotate uid r)
      (annotate_keyOk uid r hkr)
    rcases hl : json_line uid r with _ | line
    · unfold json_line at hl
      rw [hl] at hsome
      cases hsome
    · obtain ⟨j, hj⟩ := serialize_with_guard_render _ _ hl
      simp only [hl, Option.getD_some]
      refine ⟨⟨j, hj⟩, ?_⟩
      intro c hc
      exact render_lineSafe j c (by rw [← hj]; exact hc)

/-- Witness for C8: two concrete records yield a file with exactly two
lines, in order. -/
theorem C8_witness :
    ∃ lines : List String,
      (run_persist_all ⟨some false, none, none, false⟩ 200
          ⟨some ⟨.plain, []⟩, some "report.log", "uid"⟩
          [[(.vstr "a", .vint 1)], [(.vstr "b", .vstr "two")]]).file =
        some ⟨.plain, lines⟩ ∧
      lines.length = 2 := by
  obtain ⟨lines, hfile, hlen, _, _⟩ :=
    C8_plain_sink_ndjson ⟨some false, none, none, false⟩ 200 "uid" (some "report.log")
      [[(.vstr "a", .vint 1)], [(.vstr "b", .vstr "two")]] rfl
      (by
        intro r hr
        rcases List.mem_cons.mp hr with rfl | hr
        · intro kv hkv
          rcases List.mem_singleton.mp hkv with rfl
          rfl
        rcases List.mem_singleton.mp hr with rfl
        intro kv hkv
        rcases List.mem_singleton.mp hkv with rfl
        rfl)
  exact ⟨lines, hfile, hlen⟩

/-- Witness for C6: on a passing report with three sections, exactly the
two "Captured log ..." sections are stripped, the middle section and the
outcome field survive unchanged. -/
theorem C6_witness :
    (exclude_passed_logs ⟨some false, none, none, true⟩
        [(.vstr "outcome", .vstr "passed"),
         (.vstr "sections", .vlist
           [.vlist [.vstr "Captured log setup", .vstr "x"],
            .vlist [.vstr "stdout", .vstr "y"],
            .vlist [.vstr "Captured log call", .vstr "z"]])]).2 = none ∧
    lookupStr (exclude_passed_logs ⟨some false, none, none, true⟩
        [(.vstr "outcome", .vstr "passed"),
         (.vstr "sections", .vlist
           [.vlist [.vstr "Captured log setup", .vstr "x"],
            .vlist [.vstr "stdout", .vstr "y"],
            .vlist [.vstr "Captured log call", .vstr "z"]])]).1 "sections" =
      some (.vlist [.vlist [.vstr "stdout", .vstr "y"]]) ∧
    lookupStr (exclude_passed_logs ⟨some false, none, none, true⟩
        [(.vstr "outcome", .vstr "passed"),
         (.vstr "sections", .vlist
           [.vlist [.vstr "Captured log setup", .vstr "x"],
            .vlist [.vstr "stdout", .vstr "y"],
            .vlist [.vstr "Captured log call", .vstr "z"]])]).1 "outcome" =
      some (.vstr "passed") := by
  obtain ⟨h1, h2, h3⟩ :=
    (C6_exclude_logs_on_passed ⟨some false, none, none, true⟩
      [(.vstr "outcome", .vstr "passed"),
       (.vstr "sections", .vlist
         [.vlist [.vstr "Captured log setup", .vstr "x"],
          .vlist [.vstr "stdout", .vstr "y"],
          .vlist [.vstr "Captured log call", .vstr "z"]])]
      [.vlist [.vstr "Captured log setup", .vstr "x"],
       .vlist [.vstr "stdout", .vstr "y"],
       .vlist [.vstr "Captured log call", .vstr "z"]]
      rfl
      (by
        intro s hs
        rcases List.mem_cons.mp hs with rfl | hs
        · exact ⟨_, _, rfl⟩
        rcases List.mem_cons.mp hs with rfl | hs
        · exact ⟨_, _, rfl⟩
        rcases List.mem_singleton.mp hs with rfl
        exact ⟨_, _, rfl⟩)).1 ⟨rfl, rfl⟩
  refine ⟨h1, ?_, h3 "outcome" (by decide)⟩
  rw [h2]
  rfl

/-- C5 counterexample: with both sinks configured, a 301 response is not
a 2xx success, yet `persist_data` raises no error at all — refuting the
claim's premise that any non-2xx response raises from the persist
operation. -/
theorem C5_counterexample :
    ¬(200 ≤ 301 ∧ 301 < 300) ∧
    (persist_data ⟨some true, some "https://collector.example", some "tok", false⟩ 301
        ⟨some ⟨.plain, []⟩, some "report.log", "uid"⟩
        [(.vstr "a", .vint 1)]).error = none :=
  ⟨by omega, rfl⟩

/-- Witness for C5: a concrete dual-sink run against a 500 response
raises `HTTPError` while the file holds the record's line. -/
theorem C5_witness :
    (persist_data ⟨some true, some "https://collector.example", some "tok", false⟩ 500
        ⟨some ⟨.plain, []⟩, some "report.log", "uid"⟩
        [(.vstr "a", .vint 1)]).error = some .httpError ∧
    ∃ line, (persist_data ⟨some true, some "https://collector.example", some "tok", false⟩ 500
        ⟨some ⟨.plain, []⟩, some "report.log", "uid"⟩
        [(.vstr "a", .vint 1)]).state.file = some ⟨.plain, [line]⟩ := by
  obtain ⟨line, hl, he, hfile, hsent⟩ :=
    C5_file_written_before_forwarding_failure
      ⟨some true, some "https://collector.example", some "tok", false⟩ 500
      ⟨some ⟨.plain, []⟩, some "report.log", "uid"⟩
      [(.vstr "a", .vint 1)] ⟨.plain, []⟩ "https://collector.example" "tok"
      rfl rfl rfl rfl
      (by intro kv hkv; rcases List.mem_singleton.mp hkv with rfl; rfl)
      (by omega)
  exact ⟨he, line, by simpa using hfile⟩

/-- C9: `ReportLogPlugin.close` releases the stream exactly once and is
always safe: it never raises, closing drops the stream, a second call on
the resulting state is a no-op that also does not raise, and calling it
when no stream was ever opened leaves the state untouched. -/
theorem C9_close_idempotent_never_raises (st : PluginState) :
    (close st).2 = none ∧
    (close st).1.file = none ∧
    close (close st).1 = ((close st).1, none) ∧
    (st.file = none → (close st).1 = st) := by
  cases hf : st.file <;> simp [close, hf]

/-- Witness for C9 at a concrete never-opened state: the close is a
no-op and raises nothing. -/
theorem C9_witness :
    (close ⟨none, none, "uid"⟩).1 = ⟨none, none, "uid"⟩ ∧
    (close ⟨none, none, "uid"⟩).2 = none :=
  ⟨(C9_close_idempotent_never_raises ⟨none, none, "uid"⟩).2.2.2 rfl,
   (C9_close_idempotent_never_raises ⟨none, none, "uid"⟩).1⟩

/-- C10 counterexample: a 301 response is not a 2xx success, yet the
forwarding call raises nothing, because `requests`'
`raise_for_status` only raises for 4xx/5xx codes. This refutes "raises a
forwarding error if and only if the response status is not 2xx". -/
theorem C10_counterexample :
    ¬(200 ≤ 301 ∧ 301 < 300) ∧
    (send_report_to_dataset "https://collector.example" "tok" [] 301).2 = none :=
  ⟨by omega, rfl⟩

/-- C10 amended: `send_report_to_dataset` performs the single POST to
`{base_url}/services/collector/event` with the bearer-token and JSON
headers and the record as body, and raises a forwarding error if and
only if the response status is a 4xx or 5xx code (so a 1xx/3xx response,
though not 2xx, returns without raising). -/
theorem C10_send_report_spec (url token : String) (r : Record) (status : Nat) :
    (send_report_to_dataset url token r status).1 =
      { url := url ++ "/services/collector/event"
        authorization := "Bearer " ++ token
        accept := "application/json"
        contentType := "application/json"
        body := r } ∧
    ((send_report_to_dataset url token r status).2 = some .httpError ↔
      400 ≤ status ∧ status < 600) ∧
    ((send_report_to_dataset url token r status).2 = none ↔
      ¬(400 ≤ status ∧ status < 600)) := by
  refine ⟨rfl, ?_, ?_⟩ <;>
    unfold send_report_to_dataset raise_for_status <;> split <;> simp_all

/-- C1: the claim is what the code intends but not what it does. With
the default sentinel path `"no.log"` (no real destination configured),
`pytest_configure` still constructs a plugin whose stream is OPEN on a
file literally named `no.log`, and `persist_data` still writes and
flushes every record to it: the line-126 guard
`self._file is not "no.log"` compares a stream object (or `None`) to a
string literal by identity, so it is true for every possible value of
`_file` and the skip branch is unreachable. -/
theorem C1_sentinel_write_not_skipped :
    (∀ f : Option FileStream, file_is_not_the_string_no_log f = true) ∧
    (pytest_configure ⟨"no.log", false, false, none, none⟩ 0 0).2 =
      [⟨some ⟨.plain, []⟩, some "no.log", "test_report_0_100000"⟩] ∧
    ((persist_data (pytest_configure ⟨"no.log", false, false, none, none⟩ 0 0).1 200
        ⟨some ⟨.plain, []⟩, some "no.log", "test_report_0_100000"⟩ []).state.file.map
      (fun fs => fs.lines.length)) = some 1 := by
  refine ⟨fun f => ?_, by decide, by decide⟩
  cases f <;> rfl

/-- C4: with the dataset option off, `pytest_configure` never sets
`config._report_log_dataset`, so a file-only recorder cannot complete
any `persist_data` call: every call raises, and whenever execution
reaches the line-129 forwarding test (serialization succeeded and the
stream is open) the escaping exception is precisely the attribute
lookup error. -/
theorem C4_file_only_recorder_always_raises (cfg : Config) (status : Nat)
    (st : PluginState) (d : Record)
    (hflag : cfg.report_log_dataset = none) :
    (persist_data cfg status st d).error.isSome = true ∧
    ((∀ kv ∈ d, keyOk kv.1 = true) → ∀ f, st.file = some f →
      (persist_data cfg status st d).error = some .attributeError) := by
  constructor
  · rcases hsg : (serialize_with_guard (annotate st.unique_id d)).2 with _ | line
    · rw [persist_data_typeError cfg status st d hsg]; rfl
    · cases hf : st.file with
      | none => rw [persist_data_closed cfg status st d line hf hsg]; rfl
      | some f =>
        rw [persist_data_serialized cfg status st d f line hf hsg]
        simp [forward_step, hflag]
  · intro hk f hf
    have hs := serialize_with_guard_isSome (annotate st.unique_id d)
      (annotate_keyOk st.unique_id d hk)
    rcases hsg : (serialize_with_guard (annotate st.unique_id d)).2 with _ | line
    · rw [hsg] at hs; cases hs
    · rw [persist_data_serialized cfg status st d f line hf hsg]
      simp [forward_step, hflag]

/-- Witness for C4: a concrete file-only configuration raises
`AttributeError` from `persist_data`. -/
theorem C4_witness :
    (persist_data ⟨none, none, none, false⟩ 200
        ⟨some ⟨.plain, []⟩, some "report.log", "uid"⟩
        [(.vstr "a", .vint 1)]).error = some .attributeError := by
  refine (C4_file_only_recorder_always_raises _ 200 _ _ rfl).2 ?_ _ rfl
  intro kv hkv
  rcases List.mem_singleton.mp hkv with rfl
  rfl

/-- C2 counterexample: a record whose only flaw is an unserializable KEY
defeats the guard. `cleanup_unserializable` repairs values but keeps
keys, so the retried `json.dumps` raises `TypeError` again, and the
exception escapes `persist_data`'s serialization phase. -/
theorem C2_counterexample :
    (persist_data ⟨some false, none, none, false⟩ 200
        ⟨some ⟨.plain, []⟩, some "report.log", "uid"⟩
        [(.vobj "<object key>", .vint 1)]).error = some .typeError := rfl

/-- C2 amended: the serialization phase never lets an exception escape
provided every top-level key of the record is of a JSON-encodable key
type; unserializable VALUES anywhere in the record are always recovered
(the guard produces a JSON line). Records with unserializable keys —
and, outside this model, circular references — still raise. -/
theorem C2_guard_recovers_value_failures (cfg : Config) (status : Nat)
    (st : PluginState) (d : Record)
    (hk : ∀ kv ∈ d, keyOk kv.1 = true) :
    (json_line st.unique_id d).isSome = true ∧
    (persist_data cfg status st d).error ≠ some .typeError := by
  have hs := serialize_with_guard_isSome (annotate st.unique_id d)
    (annotate_keyOk st.unique_id d hk)
  refine ⟨hs, ?_⟩
  rcases hsg : (serialize_with_guard (annotate st.unique_id d)).2 with _ | line
  · rw [hsg] at hs; cases hs
  · cases hf : st.file with
    | none => rw [persist_data_closed cfg status st d line hf hsg]; simp
    | some f =>
      rw [persist_data_serialized cfg status st d f line hf hsg]
      rcases forward_step_error_cases cfg status
        (serialize_with_guard (annotate st.unique_id d)).1 with h | h | h <;>
        simp [h]

/-- Witness for C2: a record with an unserializable value is recovered
and no `TypeError` escapes. -/
theorem C2_witness :
    (json_line "uid" [(.vstr "payload", .vobj "<unserializable>")]).isSome = true ∧
    (persist_data ⟨some false, none, none, false⟩ 200
        ⟨some ⟨.plain, []⟩, some "report.log", "uid"⟩
        [(.vstr "payload", .vobj "<unserializable>")]).error ≠ some .typeError := by
  refine C2_guard_recovers_value_failures ⟨some false, none, none, false⟩ 200
    ⟨some ⟨.plain, []⟩, some "report.log", "uid"⟩
    [(.vstr "payload", .vobj "<unserializable>")] ?_
  intro kv hkv
  rcases List.mem_singleton.mp hkv with rfl
  rfl

/-- C3 counterexample: `sanitize` does not always yield a JSON-encodable
record — an entry with an unserializable key survives
`cleanup_unserializable` (only the value is stringified), so the cleaned
dict still fails to encode. -/
theorem C3_counterexample :
    (dumps (.vdict (cleanup_unserializable
      [(.vobj "<object key>", .vint 1)]))).isSome = false := rfl

/-- C3 amended: provided every top-level key is of a JSON-encodable key
type, `cleanup_unserializable r` is JSON-encodable; field-wise and
order-preserving: a field whose singleton encoding `{key: value}`
succeeds is carried over unchanged, and a field whose singleton encoding
fails keeps its key and has its value replaced by `str(value)`. -/
theorem C3_cleanup_fieldwise (r : Record)
    (hk : ∀ kv ∈ r, keyOk kv.1 = true) :
    (dumps (.vdict (cleanup_unserializable r))).isSome = true ∧
    (cleanup_unserializable r).length = r.length ∧
    ∀ i (hi : i < r.length) (hi' : i < (cleanup_unserializable r).length),
      ((dumps (.vdict [r.get ⟨i, hi⟩])).isSome = true →
        (cleanup_unserializable r).get ⟨i, hi'⟩ = r.get ⟨i, hi⟩) ∧
      ((dumps (.vdict [r.get ⟨i, hi⟩])).isSome = false →
        (cleanup_unserializable r).get ⟨i, hi'⟩ =
          ((r.get ⟨i, hi⟩).1, .vstr (pyStr (r.get ⟨i, hi⟩).2))) := by
  refine ⟨cleanup_dumps_isSome r hk, by simp [cleanup_unserializable], ?_⟩
  intro i hi hi'
  have hg : (cleanup_unserializable r).get ⟨i, hi'⟩ = repair_entry (r.get ⟨i, hi⟩) := by
    simp [cleanup_unserializable]
  constructor
  · intro hsome
    rcases hd : dumps (.vdict [r.get ⟨i, hi⟩]) with _ | s
    · rw [hd] at hsome; cases hsome
    · rw [hg]; unfold repair_entry; rw [hd]
  · intro hnone
    rcases hd : dumps (.vdict [r.get ⟨i, hi⟩]) with _ | s
    · rw [hg]; unfold repair_entry; rw [hd]
    · rw [hd] at hnone; cases hnone

/-- Witness for C3: a record with one encodable and one unserializable
field is cleaned to an encodable record where exactly the bad field's
value is replaced by its string form. -/
theorem C3_witness :
    (dumps (.vdict (cleanup_unserializable
        [(.vstr "good", .vint 7), (.vstr "bad", .vobj "<X>")]))).isSome = true ∧
    cleanup_unserializable [(.vstr "good", .vint 7), (.vstr "bad", .vobj "<X>")] =
      [(.vstr "good", .vint 7), (.vstr "bad", .vstr "<X>")] := by
  refine ⟨(C3_cleanup_fieldwise _ ?_).1, rfl⟩
  intro kv hkv
  rcases List.mem_cons.mp hkv with rfl | hkv
  · rfl
  · rcases List.mem_singleton.mp hkv with rfl
    rfl

end ReportLog
